import Mathlib

/-!
A shallow embedding of the core of the `codecrafters-http-server-rust` repository:
the request parser (`src/http/request.rs`), the HTTP method and status-code enums
(`src/http/method.rs`, `src/http/status_code.rs`), the response builder
(`src/http/response_builder.rs`) and the claim-relevant parts of the route handlers
(`src/handlers.rs`).  Strings from the Rust side are modelled as `List Char`
(the inputs of interest are ASCII, so characters coincide with bytes), header keys and
values on the builder side as `String`, and fallible operations as `Option`/`Except`.
-/

namespace HttpServer

/-- HTTP methods, from `src/http/method.rs`: a closed enum of nine verbs. -/
inductive Method where
  | Get | Post | Put | Delete | Patch | Options | Head | Connect | Trace
deriving DecidableEq, Repr

/-- `Method::from_str` (`src/http/method.rs`): case-sensitive exact match on the nine
verb tokens, any other token is a `MethodError` (modelled as `none`). -/
def parseMethod (s : List Char) : Option Method :=
  if s = "GET".toList then some .Get
  else if s = "POST".toList then some .Post
  else if s = "PUT".toList then some .Put
  else if s = "DELETE".toList then some .Delete
  else if s = "PATCH".toList then some .Patch
  else if s = "OPTIONS".toList then some .Options
  else if s = "HEAD".toList then some .Head
  else if s = "CONNECT".toList then some .Connect
  else if s = "TRACE".toList then some .Trace
  else none

/-- `Display for Method` (`src/http/method.rs`): the canonical uppercase token. -/
def methodStr : Method → List Char
  | .Get => "GET".toList
  | .Post => "POST".toList
  | .Put => "PUT".toList
  | .Delete => "DELETE".toList
  | .Patch => "PATCH".toList
  | .Options => "OPTIONS".toList
  | .Head => "HEAD".toList
  | .Connect => "CONNECT".toList
  | .Trace => "TRACE".toList

/-- The parse-error kinds of `src/http/error.rs`. -/
inductive ParseRequestErrorKind where
  | EncodingError | InvalidMethod | InvalidProtocol | InvalidRequest | NetworkError
deriving DecidableEq, Repr

/-- A parsed request (`src/http/request.rs`): method, URI, ordered header list and body. -/
structure Request where
  method : Method
  uri : List Char
  headers : List (List Char × List Char)
  body : List Char
deriving DecidableEq, Repr

/-- Split a character list at every newline, keeping all pieces (including empty ones),
the model of splitting on the `\n` separator as Rust's `str::lines` iterator does before
its carriage-return handling.  The result is always non-empty. -/
def splitOnNewline : List Char → List (List Char)
  | [] => [[]]
  | c :: cs =>
    if c = '\n' then [] :: splitOnNewline cs
    else
      match splitOnNewline cs with
      | [] => [[c]]
      | p :: ps => (c :: p) :: ps

/-- Drop a single trailing carriage return, the way `str::lines` removes the `\r` of a
`\r\n` terminator from a line it has split off. -/
def stripCR (l : List Char) : List Char :=
  if l.getLast? = some '\r' then l.dropLast else l

/-- The model of Rust's `str::lines`: split at each `\n`, strip one trailing `\r` from
every line that had a `\n` terminator, and drop the empty final piece left by a trailing
newline.  A final line without a terminator is kept verbatim. -/
def rustLines (s : List Char) : List (List Char) :=
  (splitOnNewline s).dropLast.map stripCR ++
    (match (splitOnNewline s).getLast? with
      | some [] => []
      | some l => [l]
      | none => [])

/-- The character scan inside `get_next_word` (`src/http/request.rs`): the prefix up to
the first space, and the remainder after that space if one exists. -/
def splitFirstSpace : List Char → List Char × Option (List Char)
  | [] => ([], none)
  | c :: cs =>
    if c = ' ' then ([], some cs)
    else
      let (w, r) := splitFirstSpace cs
      (c :: w, r)

/-- `get_next_word` (`src/http/request.rs`): `none` on an empty line; otherwise the first
space-delimited word together with everything after the space, or the whole line paired
with an empty remainder when no space occurs. -/
def get_next_word (l : List Char) : Option (List Char × List Char) :=
  if l = [] then none
  else
    match splitFirstSpace l with
    | (w, some r) => some (w, r)
    | (w, none) => some (w, [])

/-- `str::split_once(": ")` as used by `parse_header` (`src/http/request.rs`): split at
the first occurrence of the two-character separator. -/
def splitOnceColonSpace : List Char → Option (List Char × List Char)
  | [] => none
  | c :: cs =>
    if c = ':' ∧ cs.head? = some ' ' then some ([], cs.tail)
    else (splitOnceColonSpace cs).map fun p => (c :: p.1, p.2)

/-- The header loop of `Request::try_from`: consume lines until the first empty line,
each line must split on the literal `": "`; returns the headers in encounter order and
the remaining (body) lines. -/
def parseHeaders :
    List (List Char) → Option (List (List Char × List Char) × List (List Char))
  | [] => some ([], [])
  | line :: rest =>
    if line = [] then some ([], rest)
    else
      match splitOnceColonSpace line with
      | none => none
      | some hv =>
        match parseHeaders rest with
        | none => none
        | some (hs, bodyLines) => some (hv :: hs, bodyLines)

/-- `Request::try_from` (`src/http/request.rs`): split the text into lines; split the
first line at its first two spaces into method, URI and protocol; the method must be a
known verb, the URI must start with `/`, the protocol must be exactly `HTTP/1.1` (an
empty protocol token is `InvalidRequest`, not `InvalidProtocol`); then consume header
lines up to the first blank line and concatenate the remaining lines into the body. -/
def tryFrom (s : List Char) : Except ParseRequestErrorKind Request :=
  match rustLines s with
  | [] => .error .InvalidRequest
  | firstLine :: rest =>
    match get_next_word firstLine with
    | none => .error .InvalidRequest
    | some (methodWord, restOfLine) =>
      match parseMethod methodWord with
      | none => .error .InvalidMethod
      | some method =>
        match get_next_word restOfLine with
        | none => .error .InvalidRequest
        | some (uri, protocol) =>
          if uri.head? ≠ some '/' then .error .InvalidRequest
          else if protocol ≠ "HTTP/1.1".toList then
            if protocol = [] then .error .InvalidRequest
            else .error .InvalidProtocol
          else
            match parseHeaders rest with
            | none => .error .InvalidRequest
            | some (headers, bodyLines) =>
              .ok { method, uri, headers, body := bodyLines.flatten }

instance {ε α : Type} [DecidableEq ε] [DecidableEq α] : DecidableEq (Except ε α) :=
  fun x y =>
    match x, y with
    | .ok a, .ok b =>
      if h : a = b then isTrue (by rw [h])
      else isFalse (by intro hh; cases hh; exact h rfl)
    | .error a, .error b =>
      if h : a = b then isTrue (by rw [h])
      else isFalse (by intro hh; cases hh; exact h rfl)
    | .ok _, .error _ => isFalse (by intro h; cases h)
    | .error _, .ok _ => isFalse (by intro h; cases h)

/-- The request line `METHOD <SP> path <SP> proto`, shaped as the parser consumes it. -/
def requestLine (m : Method) (path proto : List Char) : List Char :=
  methodStr m ++ ' ' :: (path ++ ' ' :: proto)

/-- The CRLF line terminator. -/
def crlf : List Char := ['\r', '\n']

/-- The wire form of one header line (without its terminator). -/
def headerLine (kv : List Char × List Char) : List Char :=
  kv.1 ++ ':' :: ' ' :: kv.2

/-- Terminate each line with CRLF, concatenate, and append a body. -/
def linesJoin (ls : List (List Char)) (body : List Char) : List Char :=
  (ls.map fun l => l ++ crlf).flatten ++ body

/-- A full request text: request line, header lines, a blank line, then the body. -/
def mkRequestText (m : Method) (path proto : List Char)
    (hs : List (List Char × List Char)) (body : List Char) : List Char :=
  linesJoin (requestLine m path proto :: (hs.map headerLine ++ [[]])) body

/-- Well-formedness of a request path for round-tripping: starts with `/`, contains no
space and no newline. -/
abbrev GoodPath (path : List Char) : Prop :=
  path.head? = some '/' ∧ ' ' ∉ path ∧ '\n' ∉ path

/-- Well-formedness of one header pair: no colon in the name, no newline in name or
value. -/
abbrev GoodHeader (kv : List Char × List Char) : Prop :=
  ':' ∉ kv.1 ∧ '\n' ∉ kv.1 ∧ '\n' ∉ kv.2

/-- The status-code enum exactly as declared in `src/http/status_code.rs`: four
variants, no 201 Created. -/
inductive SrcStatusCode where
  | Ok | BadRequest | NotFound | InternalServerError
deriving DecidableEq, Repr

/-- The discriminant values of the `src/http/status_code.rs` enum. -/
def SrcStatusCode.code : SrcStatusCode → Nat
  | .Ok => 200
  | .BadRequest => 400
  | .NotFound => 404
  | .InternalServerError => 500

/-- `StatusCode::message` (`src/http/status_code.rs`): the reason phrase. -/
def SrcStatusCode.message : SrcStatusCode → String
  | .Ok => "OK"
  | .BadRequest => "Bad Request"
  | .NotFound => "Not Found"
  | .InternalServerError => "Internal Server Error"

/-- `Display for StatusCode` (`src/http/status_code.rs`): the wire status line
`HTTP/1.1 <code> <message>\r\n`. -/
def SrcStatusCode.render (s : SrcStatusCode) : String :=
  "HTTP/1.1 " ++ toString s.code ++ " " ++ s.message ++ "\r\n"

/-- Status codes as the route handlers use them.  `Created` is modelled from the spec:
`post_file_response` in `src/handlers.rs` (and its tests) uses `StatusCode::Created`,
which is missing from the enum in `src/http/status_code.rs`; the spec lists
`201 Created` among the status codes used, so the variant is added here so that the
handlers can be embedded. -/
inductive StatusCode where
  | Ok | Created | BadRequest | NotFound | InternalServerError
deriving DecidableEq, Repr

/-- A finalized response (`src/http/response.rs`): status code, ordered header list,
optional body bytes. -/
structure Response where
  status_code : StatusCode
  headers : List (String × String)
  body : Option (List Char)
deriving DecidableEq, Repr

/-- The response-builder state (`src/http/response_builder.rs`) in its finalize-eligible
typestate (status code already chosen). -/
structure ResponseBuilder where
  status_code : StatusCode
  headers : Option (List (String × String))
  body : Option (List Char)
  set_content_length_header : Bool
deriving DecidableEq, Repr

/-- `ResponseBuilder::new().with_status_code(..)` / the named constructors: no headers,
no body, `set_content_length_header` true. -/
def ResponseBuilder.mkNew (sc : StatusCode) : ResponseBuilder :=
  { status_code := sc, headers := none, body := none, set_content_length_header := true }

/-- `ResponseBuilder::header` (`src/http/response_builder.rs`): append one header pair
unless its key is `Content-Length`, which is silently dropped. -/
def ResponseBuilder.header (b : ResponseBuilder) (key value : String) : ResponseBuilder :=
  if key ≠ "Content-Length" then
    match b.headers with
    | some hs => { b with headers := some (hs ++ [(key, value)]) }
    | none => { b with headers := some [(key, value)] }
  else b

/-- `ResponseBuilder::headers` (`src/http/response_builder.rs`): append a list of pairs
in order, filtering out every pair whose key is `Content-Length`. -/
def ResponseBuilder.headersList (b : ResponseBuilder)
    (hs : List (String × String)) : ResponseBuilder :=
  let hs := hs.filter fun kv => kv.1 != "Content-Length"
  match b.headers with
  | some existing => { b with headers := some (existing ++ hs) }
  | none => { b with headers := some hs }

/-- `ResponseBuilder::without_content_length_header`: set the suppression flag. -/
def ResponseBuilder.without_content_length_header (b : ResponseBuilder) : ResponseBuilder :=
  { b with set_content_length_header := false }

/-- `ResponseBuilder::body`: set the body bytes. -/
def ResponseBuilder.withBody (b : ResponseBuilder) (body : List Char) : ResponseBuilder :=
  { b with body := some body }

/-- `ResponseBuilder::build` (`src/http/response_builder.rs`), parametric in the gzip
encoder `gz` (the external `flate2::GzEncoder`): take the accumulated headers, replace
the body with `gz body` when a `Content-Encoding: gzip` header pair is among them,
compute the content length of the resulting body (0 when absent), and append a
`Content-Length` header unless the suppression flag was set. -/
def ResponseBuilder.build (gz : List Char → List Char) (b : ResponseBuilder) : Response :=
  let headers := b.headers.getD []
  let content_encoding_header :=
    headers.find? fun kv => kv.1 == "Content-Encoding" && kv.2 == "gzip"
  let encoded_body :=
    match b.body with
    | some body =>
      match content_encoding_header with
      | some _ => some (gz body)
      | none => some body
    | none => none
  let content_length := (encoded_body.map List.length).getD 0
  let headers :=
    match b.set_content_length_header with
    | false => headers
    | true => headers ++ [("Content-Length", toString content_length)]
  { status_code := b.status_code, headers := headers, body := encoded_body }

/-- The headers a builder currently holds (`unwrap_or_default`). -/
def ResponseBuilder.headersOrEmpty (b : ResponseBuilder) : List (String × String) :=
  b.headers.getD []

/-- One call of the builder's public accumulation API (`with` single-header form,
`with` list form, `body`, `without_content_length_header`). -/
inductive BuildOp where
  | header (key value : String)
  | headersList (hs : List (String × String))
  | withBody (body : List Char)
  | withoutLen

/-- Apply one builder call. -/
def applyOp (b : ResponseBuilder) : BuildOp → ResponseBuilder
  | .header k v => b.header k v
  | .headersList hs => b.headersList hs
  | .withBody body => b.withBody body
  | .withoutLen => b.without_content_length_header

/-- Apply a sequence of builder calls in order. -/
def applyOps (b : ResponseBuilder) (ops : List BuildOp) : ResponseBuilder :=
  ops.foldl applyOp b

/-- A sequence of `header "Content-Length" v` calls, one per value in `vs`. -/
def ResponseBuilder.setCLs (b : ResponseBuilder) (vs : List String) : ResponseBuilder :=
  vs.foldl (fun b v => b.header "Content-Length" v) b

/-- The number of headers with key `Content-Length` in a header list. -/
def countCL (hs : List (String × String)) : Nat :=
  (hs.filter fun kv => kv.1 == "Content-Length").length

/-- Whether a header list contains a `Content-Length` header at all. -/
def hasCL (hs : List (String × String)) : Bool :=
  hs.any fun kv => kv.1 == "Content-Length"

/-- The `Accept-Encoding` lookup of `handle_connection` (`src/handlers.rs`): find a
request header whose key is `Accept-Encoding` and whose value equals `gzip` or contains
`gzip` as a substring. -/
def findAcceptGzip (hs : List (List Char × List Char)) : Option (List Char × List Char) :=
  hs.find? fun kv =>
    kv.1 == "Accept-Encoding".toList &&
      (kv.2 == "gzip".toList || decide ("gzip".toList <:+: kv.2))

/-- The encoding-negotiation tail of `handle_connection` (`src/handlers.rs`): when the
request carries an accepted gzip encoding, add `Content-Encoding: gzip` to the builder
the handler returned and build; otherwise build the builder unchanged. -/
def finishResponse (gz : List Char → List Char) (req : Request)
    (rb : ResponseBuilder) : Response :=
  match findAcceptGzip req.headers with
  | some _ => (rb.header "Content-Encoding" "gzip").build gz
  | none => rb.build gz

/-- An association-list filesystem: paths mapped to file contents. -/
abbrev FS := List (List Char × List Char)

/-- Look up a file's content. -/
def getFile (fs : FS) (path : List Char) : Option (List Char) :=
  (fs.find? fun kv => kv.1 == path).map fun kv => kv.2

/-- Create or replace a file's content. -/
def setFile (fs : FS) (path content : List Char) : FS :=
  (path, content) :: fs.filter fun kv => kv.1 != path

/-- Fuel-bounded repeated prefix stripping. -/
def trimStartMatchesAux (pat : List Char) : Nat → List Char → List Char
  | 0, l => l
  | fuel + 1, l =>
    if pat ≠ [] && pat.isPrefixOf l then trimStartMatchesAux pat fuel (l.drop pat.length)
    else l

/-- Rust's `str::trim_start_matches`: repeatedly remove the pattern while it is a prefix
(the fuel bound `l.length + 1` is enough because each removal shortens the list). -/
def trimStartMatches (pat l : List Char) : List Char :=
  trimStartMatchesAux pat (l.length + 1) l

/-- The outcome the filesystem reports for the open-create-truncate call. -/
inductive OpenResult where
  | ok | err

/-- The outcome the filesystem reports for the single `write` call: `ok n` means the
call returned `Ok(n)` after writing the first `n` bytes of the buffer. -/
inductive WriteResult where
  | ok (n : Nat) | err

/-- `post_file_response` (`src/handlers.rs`) with the filesystem's replies made
explicit: the target path is `files_dir ++ "/" ++ uri-without-"/files/"`; an open
failure returns 500 Internal Server Error with length suppression; a successful open
truncates the file to empty; a write failure then returns 400 Bad Request; a write that
reports `n` bytes written leaves the first `n` bytes of the request body in the file
(the code, `Ok(_)`, ignores the count) and returns 201 Created with length suppression
and no body. -/
def post_file_response (req : Request) (files_dir : List Char) (fs : FS)
    (openR : OpenResult) (writeR : WriteResult) : ResponseBuilder × FS :=
  let file_name := trimStartMatches "/files/".toList req.uri
  let path := files_dir ++ '/' :: file_name
  match openR with
  | .err => ((ResponseBuilder.mkNew .InternalServerError).without_content_length_header, fs)
  | .ok =>
    let fs := setFile fs path []
    match writeR with
    | .err => (ResponseBuilder.mkNew .BadRequest, fs)
    | .ok n =>
      ((ResponseBuilder.mkNew .Created).without_content_length_header,
        setFile fs path (req.body.take n))

/-! ## Lemmas about the line-splitting model -/

theorem splitOnNewline_ne_nil (s : List Char) : splitOnNewline s ≠ [] := by
  cases s with
  | nil => simp [splitOnNewline]
  | cons c cs =>
    simp only [splitOnNewline]
    split
    · simp
    · split <;> simp

theorem splitOnNewline_append (l rest : List Char) (h : '\n' ∉ l) :
    splitOnNewline (l ++ '\n' :: rest) = l :: splitOnNewline rest := by
  induction l with
  | nil => simp [splitOnNewline]
  | cons c cs ih =>
    simp only [List.mem_cons, not_or] at h
    obtain ⟨h1, h2⟩ := h
    simp only [List.cons_append, splitOnNewline, if_neg (Ne.symm h1), List.append_eq]
    rw [ih h2]

theorem splitOnNewline_no_newline (l : List Char) (h : '\n' ∉ l) :
    splitOnNewline l = [l] := by
  induction l with
  | nil => rfl
  | cons c cs ih =>
    simp only [List.mem_cons, not_or] at h
    obtain ⟨h1, h2⟩ := h
    simp only [splitOnNewline, if_neg (Ne.symm h1), ih h2]

theorem stripCR_concat_cr (l : List Char) : stripCR (l ++ ['\r']) = l := by
  simp [stripCR]

theorem splitOnNewline_linesJoin (ls : List (List Char)) (body : List Char)
    (hls : ∀ l ∈ ls, '\n' ∉ l) (hbody : '\n' ∉ body) :
    splitOnNewline (linesJoin ls body) =
      ls.map (fun l => l ++ ['\r']) ++ [body] := by
  induction ls with
  | nil => simpa [linesJoin] using splitOnNewline_no_newline body hbody
  | cons l t ih =>
    have h1 : '\n' ∉ l := hls l (by simp)
    have h2 : ∀ x ∈ t, '\n' ∉ x := fun x hx => hls x (by simp [hx])
    have hcr : '\n' ∉ l ++ ['\r'] := by
      simp only [List.mem_append, List.mem_singleton, not_or]
      exact ⟨h1, by decide⟩
    have hshape : linesJoin (l :: t) body = (l ++ ['\r']) ++ '\n' :: linesJoin t body := by
      simp [linesJoin, crlf]
    rw [hshape, splitOnNewline_append _ _ hcr, ih h2]
    simp

theorem rustLines_linesJoin (ls : List (List Char)) (body : List Char)
    (hls : ∀ l ∈ ls, '\n' ∉ l) (hbody : '\n' ∉ body) :
    rustLines (linesJoin ls body) = ls ++ if body = [] then [] else [body] := by
  have hmap : ∀ xs : List (List Char), (xs.map (fun l => l ++ ['\r'])).map stripCR = xs := by
    intro xs
    induction xs with
    | nil => rfl
    | cons a t ih => simp only [List.map_cons, stripCR_concat_cr, ih]
  unfold rustLines
  rw [splitOnNewline_linesJoin ls body hls hbody]
  cases body with
  | nil =>
    rw [List.getLast?_concat, List.dropLast_concat, hmap]
    simp
  | cons b bs =>
    rw [List.getLast?_concat, List.dropLast_concat, hmap]
    simp

/-! ## Lemmas about request-line tokenisation -/

theorem splitFirstSpace_append (w r : List Char) (h : ' ' ∉ w) :
    splitFirstSpace (w ++ ' ' :: r) = (w, some r) := by
  induction w with
  | nil => simp [splitFirstSpace]
  | cons c cs ih =>
    simp only [List.mem_cons, not_or] at h
    obtain ⟨h1, h2⟩ := h
    simp only [List.cons_append, splitFirstSpace, if_neg (Ne.symm h1), List.append_eq]
    rw [ih h2]

theorem splitFirstSpace_no_space (w : List Char) (h : ' ' ∉ w) :
    splitFirstSpace w = (w, none) := by
  induction w with
  | nil => rfl
  | cons c cs ih =>
    simp only [List.mem_cons, not_or] at h
    obtain ⟨h1, h2⟩ := h
    simp only [splitFirstSpace, if_neg (Ne.symm h1), ih h2]

theorem get_next_word_append (w r : List Char) (h : ' ' ∉ w) :
    get_next_word (w ++ ' ' :: r) = some (w, r) := by
  unfold get_next_word
  rw [if_neg (by simp), splitFirstSpace_append w r h]

theorem get_next_word_no_space (w : List Char) (h : ' ' ∉ w) (hne : w ≠ []) :
    get_next_word w = some (w, []) := by
  unfold get_next_word
  rw [if_neg hne, splitFirstSpace_no_space w h]

theorem parseMethod_methodStr (m : Method) : parseMethod (methodStr m) = some m := by
  cases m <;> rfl

theorem methodStr_not_space (m : Method) : ' ' ∉ methodStr m := by
  cases m <;> decide

theorem methodStr_not_newline (m : Method) : '\n' ∉ methodStr m := by
  cases m <;> decide

/-! ## Lemmas about header parsing -/

theorem splitOnceColonSpace_append (k v : List Char) (h : ':' ∉ k) :
    splitOnceColonSpace (k ++ ':' :: ' ' :: v) = some (k, v) := by
  induction k with
  | nil => simp [splitOnceColonSpace]
  | cons c cs ih =>
    simp only [List.mem_cons, not_or] at h
    obtain ⟨h1, h2⟩ := h
    have hcond : ¬(c = ':' ∧ (cs ++ ':' :: ' ' :: v).head? = some ' ') := by
      intro hc
      exact (Ne.symm h1) hc.1
    simp only [List.cons_append, splitOnceColonSpace, List.append_eq]
    rw [if_neg hcond, ih h2]
    rfl

theorem parseHeaders_headerLines (hs : List (List Char × List Char))
    (bodyLines : List (List Char)) (hhs : ∀ kv ∈ hs, ':' ∉ kv.1) :
    parseHeaders (hs.map headerLine ++ [] :: bodyLines) = some (hs, bodyLines) := by
  induction hs with
  | nil => rfl
  | cons kv t ih =>
    have hk : ':' ∉ kv.1 := hhs kv (by simp)
    have hline : headerLine kv ≠ [] := by simp [headerLine]
    have hsplit : splitOnceColonSpace (headerLine kv) = some (kv.1, kv.2) :=
      splitOnceColonSpace_append kv.1 kv.2 hk
    simp only [List.map_cons, List.cons_append, parseHeaders, List.append_eq]
    rw [if_neg hline, hsplit, ih (fun x hx => hhs x (by simp [hx]))]

theorem rustLines_mkRequestText (m : Method) (path proto : List Char)
    (hs : List (List Char × List Char)) (body : List Char)
    (hnlpath : '\n' ∉ path) (hproto : '\n' ∉ proto)
    (hhs : ∀ kv ∈ hs, GoodHeader kv) (hbody : '\n' ∉ body) :
    rustLines (mkRequestText m path proto hs body) =
      requestLine m path proto ::
        (hs.map headerLine ++ [] :: (if body = [] then [] else [body])) := by
  unfold mkRequestText
  rw [rustLines_linesJoin _ _ ?_ hbody]
  · cases body <;> simp
  · intro l hl
    simp only [List.mem_cons, List.mem_append, List.mem_map, List.mem_singleton] at hl
    rcases hl with rfl | ⟨⟨kv, hkv, rfl⟩ | (rfl | h)⟩
    · intro hmem
      simp only [requestLine, List.mem_append, List.mem_cons] at hmem
      rcases hmem with h | h | h | h
      · exact methodStr_not_newline m h
      · exact (by decide : ('\n' : Char) ≠ ' ') h
      · exact hnlpath h
      · rcases h with h | h
        · exact (by decide : ('\n' : Char) ≠ ' ') h
        · exact hproto h
    · obtain ⟨-, hk, hv⟩ := hhs kv hkv
      intro hmem
      simp only [headerLine, List.mem_append, List.mem_cons] at hmem
      rcases hmem with h | h | h | h
      · exact hk h
      · exact (by decide : ('\n' : Char) ≠ ':') h
      · exact (by decide : ('\n' : Char) ≠ ' ') h
      · exact hv h
    · simp
    · cases h

/-- The complete evaluation of `Request::try_from` on a structurally assembled request
text: the request is accepted exactly when the protocol token is `HTTP/1.1`; an empty
protocol token gives `InvalidRequest`, any other token gives `InvalidProtocol`. -/
theorem tryFrom_mkRequestText (m : Method) (path proto : List Char)
    (hs : List (List Char × List Char)) (body : List Char)
    (hpath : GoodPath path) (hproto : '\n' ∉ proto)
    (hhs : ∀ kv ∈ hs, GoodHeader kv) (hbody : '\n' ∉ body) :
    tryFrom (mkRequestText m path proto hs body) =
      if proto = "HTTP/1.1".toList then
        .ok { method := m, uri := path, headers := hs, body := body }
      else if proto = [] then .error .InvalidRequest
      else .error .InvalidProtocol := by
  obtain ⟨hhead, hsp, hnl⟩ := hpath
  have hlines := rustLines_mkRequestText m path proto hs body hnl hproto hhs hbody
  have hfirst : get_next_word (requestLine m path proto) =
      some (methodStr m, path ++ ' ' :: proto) :=
    get_next_word_append _ _ (methodStr_not_space m)
  have hsecond : get_next_word (path ++ ' ' :: proto) = some (path, proto) :=
    get_next_word_append _ _ hsp
  simp only [tryFrom, hlines, hfirst, parseMethod_methodStr, hsecond, hhead]
  by_cases hp : proto = "HTTP/1.1".toList
  · rw [if_pos hp]
    rw [if_neg (by simp), if_neg (by simp [hp])]
    rw [parseHeaders_headerLines hs _ (fun kv hkv => (hhs kv hkv).1)]
    cases body <;> simp
  · rw [if_neg hp]
    rw [if_neg (by simp), if_pos (by simpa using hp)]

/-! ## The parser claims -/

/-- C2 (counterexample): on the input `POST / HTTP/1.1\r\n\r\nab\r\ncd` — a valid
request text whose body is `ab\r\ncd` — the parser succeeds but returns body `abcd`,
not the body supplied: line terminators inside the body are dropped. -/
theorem tryFrom_body_newline_not_verbatim :
    tryFrom ("POST / HTTP/1.1\r\n\r\nab\r\ncd".toList) =
        .ok ⟨.Post, "/".toList, [], "abcd".toList⟩ ∧
      "abcd".toList ≠ "ab\r\ncd".toList := by
  exact ⟨by decide, by decide⟩

/-- C2 (amended): for every request text assembled from a recognised method, a path that
starts with `/` and contains no space or newline, well-formed header lines (no colon in
a name, no newline in a name or value) and a body containing no newline, the parser
succeeds and returns exactly the supplied method, path, ordered header list and body. -/
theorem tryFrom_roundtrip (m : Method) (path : List Char)
    (hs : List (List Char × List Char)) (body : List Char)
    (hpath : GoodPath path) (hhs : ∀ kv ∈ hs, GoodHeader kv) (hbody : '\n' ∉ body) :
    tryFrom (mkRequestText m path "HTTP/1.1".toList hs body) =
      .ok { method := m, uri := path, headers := hs, body := body } := by
  rw [tryFrom_mkRequestText m path _ hs body hpath (by decide) hhs hbody, if_pos rfl]

/-- C2 (witness): the round-trip theorem applied at a concrete request. -/
theorem tryFrom_roundtrip_witness :
    tryFrom (mkRequestText .Post "/files/a.txt".toList "HTTP/1.1".toList
        [("Host".toList, "x:1".toList)] "hi".toList) =
      .ok { method := .Post, uri := "/files/a.txt".toList,
            headers := [("Host".toList, "x:1".toList)], body := "hi".toList } :=
  tryFrom_roundtrip .Post _ _ _ (by decide) (by decide) (by decide)

/-- C3: request-line failures are classified as claimed: a request line missing the URI
or protocol token fails with `InvalidRequest` (`GET HTTP/1.1` and bare `GET`), a
protocol token other than `HTTP/1.1` fails with `InvalidProtocol` (`GET / HTTP/1.0`),
an unrecognised verb fails with `InvalidMethod` (`GETT / HTTP/1.1`), and whenever the
parsed protocol token is empty the parser yields `InvalidRequest` and never
`InvalidProtocol`. -/
theorem request_line_error_classification :
    tryFrom ("GET HTTP/1.1\r\n\r\n".toList) = .error .InvalidRequest ∧
    tryFrom ("GET\r\n\r\n".toList) = .error .InvalidRequest ∧
    tryFrom ("GET / HTTP/1.0\r\n\r\n".toList) = .error .InvalidProtocol ∧
    tryFrom ("GETT / HTTP/1.1\r\n\r\n".toList) = .error .InvalidMethod ∧
    (∀ s firstLine rest w r u, rustLines s = firstLine :: rest →
      get_next_word firstLine = some (w, r) → get_next_word r = some (u, []) →
      tryFrom s ≠ .error .InvalidProtocol) ∧
    (∀ s firstLine rest w r mm u, rustLines s = firstLine :: rest →
      get_next_word firstLine = some (w, r) → parseMethod w = some mm →
      get_next_word r = some (u, []) →
      tryFrom s = .error .InvalidRequest) := by
  have hne : ([] : List Char) ≠ "HTTP/1.1".toList := by decide
  refine ⟨by decide, by decide, by decide, by decide, ?_, ?_⟩
  · intro s firstLine rest w r u h1 h2 h3
    simp only [tryFrom, h1, h2, h3]
    cases hm : parseMethod w with
    | none => simp
    | some mm =>
      by_cases hu : u.head? = some '/' <;> simp [hu, hne]
  · intro s firstLine rest w r mm u h1 h2 h3 h4
    simp only [tryFrom, h1, h2, h3, h4]
    by_cases hu : u.head? = some '/' <;> simp [hu, hne]

/-- C3 (witness): the empty-protocol clauses applied at the concrete input
`GET /x\r\n\r\n`, whose protocol token is empty. -/
theorem request_line_error_classification_witness :
    tryFrom ("GET /x\r\n\r\n".toList) = .error .InvalidRequest ∧
    tryFrom ("GET /x\r\n\r\n".toList) ≠ .error .InvalidProtocol :=
  ⟨request_line_error_classification.2.2.2.2.2 ("GET /x\r\n\r\n".toList)
      ("GET /x".toList) [[]] ("GET".toList) ("/x".toList) .Get ("/x".toList)
      (by decide) (by decide) (by decide) (by decide),
    request_line_error_classification.2.2.2.2.1 ("GET /x\r\n\r\n".toList)
      ("GET /x".toList) [[]] ("GET".toList) ("/x".toList) ("/x".toList)
      (by decide) (by decide) (by decide)⟩

/-- C10: in a request line with more than two spaces, everything after the second space
is taken as the protocol token; a protocol token containing a further space is neither
`HTTP/1.1` nor empty, so the input is rejected with `InvalidProtocol` — never silently
accepted and never classified `InvalidRequest`. -/
theorem trailing_request_line_tokens_invalid_protocol (m : Method)
    (path proto : List Char) (hpath : GoodPath path) (hsp : ' ' ∈ proto)
    (hnl : '\n' ∉ proto) :
    tryFrom (mkRequestText m path proto [] []) = .error .InvalidProtocol := by
  rw [tryFrom_mkRequestText m path proto [] [] hpath hnl (by simp) (by simp)]
  have h1 : proto ≠ "HTTP/1.1".toList := by
    intro h
    rw [h] at hsp
    revert hsp
    decide
  have h2 : proto ≠ [] := by
    rintro rfl
    cases hsp
  rw [if_neg h1, if_neg h2]

/-- C10 (witness): the claim's concrete input `GET / HTTP/1.1 extra\r\n\r\n` is rejected
with `InvalidProtocol`. -/
theorem trailing_request_line_tokens_invalid_protocol_witness :
    tryFrom ("GET / HTTP/1.1 extra\r\n\r\n".toList) = .error .InvalidProtocol := by
  have h : ("GET / HTTP/1.1 extra\r\n\r\n".toList) =
      mkRequestText .Get "/".toList "HTTP/1.1 extra".toList [] [] := by decide
  rw [h]
  exact trailing_request_line_tokens_invalid_protocol .Get "/".toList
    "HTTP/1.1 extra".toList (by decide) (by decide) (by decide)

/-! ## Lemmas about the response builder -/

theorem find_content_encoding_gzip (hs : List (String × String)) :
    (hs.find? fun kv => kv.1 == "Content-Encoding" && kv.2 == "gzip") =
      if ("Content-Encoding", "gzip") ∈ hs then some ("Content-Encoding", "gzip")
      else none := by
  induction hs with
  | nil => rfl
  | cons kv t ih =>
    by_cases hk : kv = ("Content-Encoding", "gzip")
    · subst hk
      simp [List.find?]
    · have hpred : (kv.1 == "Content-Encoding" && kv.2 == "gzip") = false := by
        by_contra hcon
        rw [Bool.not_eq_false, Bool.and_eq_true, beq_iff_eq, beq_iff_eq] at hcon
        exact hk (Prod.ext hcon.1 hcon.2)
      simp only [List.find?, hpred]
      rw [ih]
      have hne : ("Content-Encoding", "gzip") ≠ kv := fun h => hk h.symm
      simp [List.mem_cons, hne]

theorem countCL_append (xs ys : List (String × String)) :
    countCL (xs ++ ys) = countCL xs + countCL ys := by
  simp [countCL, List.filter_append]

theorem headersOrEmpty_header (b : ResponseBuilder) (k v : String) :
    (b.header k v).headersOrEmpty =
      if k ≠ "Content-Length" then b.headersOrEmpty ++ [(k, v)]
      else b.headersOrEmpty := by
  by_cases hk : k ≠ "Content-Length" <;>
    cases hhs : b.headers <;>
      simp [ResponseBuilder.header, ResponseBuilder.headersOrEmpty, hk, hhs]

theorem headersOrEmpty_headersList (b : ResponseBuilder) (hs : List (String × String)) :
    (b.headersList hs).headersOrEmpty =
      b.headersOrEmpty ++ hs.filter fun kv => kv.1 != "Content-Length" := by
  cases hhs : b.headers <;>
    simp [ResponseBuilder.headersList, ResponseBuilder.headersOrEmpty, hhs]

theorem countCL_filter_ne (hs : List (String × String)) :
    countCL (hs.filter fun kv => kv.1 != "Content-Length") = 0 := by
  unfold countCL
  rw [List.filter_filter, List.length_eq_zero]
  apply List.filter_eq_nil_iff.mpr
  intro kv hkv
  simp [bne]

theorem countCL_headersOrEmpty_applyOp (b : ResponseBuilder) (op : BuildOp)
    (h : countCL b.headersOrEmpty = 0) :
    countCL (applyOp b op).headersOrEmpty = 0 := by
  cases op with
  | header k v =>
    rw [applyOp, headersOrEmpty_header]
    by_cases hk : k ≠ "Content-Length"
    · rw [if_pos hk, countCL_append, h]
      simp [countCL, hk]
    · rw [if_neg hk]
      exact h
  | headersList hs =>
    rw [applyOp, headersOrEmpty_headersList, countCL_append, h, countCL_filter_ne]
  | withBody body => exact h
  | withoutLen => exact h

theorem countCL_headersOrEmpty_applyOps (sc : StatusCode) (ops : List BuildOp) :
    countCL (applyOps (ResponseBuilder.mkNew sc) ops).headersOrEmpty = 0 := by
  have key : ∀ (ops : List BuildOp) (b : ResponseBuilder),
      countCL b.headersOrEmpty = 0 → countCL (applyOps b ops).headersOrEmpty = 0 := by
    intro ops
    induction ops with
    | nil => intro b hb; exact hb
    | cons op t ih =>
      intro b hb
      exact ih (applyOp b op) (countCL_headersOrEmpty_applyOp b op hb)
  exact key ops (ResponseBuilder.mkNew sc) rfl

theorem countCL_build (gz : List Char → List Char) (b : ResponseBuilder) :
    countCL (b.build gz).headers =
      countCL b.headersOrEmpty + if b.set_content_length_header then 1 else 0 := by
  cases hf : b.set_content_length_header <;>
    simp [ResponseBuilder.build, ResponseBuilder.headersOrEmpty, hf,
      countCL_append, countCL]

theorem setCLs_id (b : ResponseBuilder) (vs : List String) : b.setCLs vs = b := by
  have key : ∀ (vs : List String) (b : ResponseBuilder), b.setCLs vs = b := by
    intro vs
    induction vs with
    | nil => intro b; rfl
    | cons v t ih =>
      intro b
      have h : b.header "Content-Length" v = b := by
        simp [ResponseBuilder.header]
      calc (b.header "Content-Length" v).setCLs t = b.setCLs t := by rw [h]
        _ = b := ih b
  exact key vs b

/-! ## The response-builder claims -/

/-- C1: whenever the finalize-eligible builder holds `some body`, `build` first replaces
the body with its gzip-compressed form exactly when the pair
`("Content-Encoding", "gzip")` is among the accumulated headers, and then — unless
length suppression was requested — appends a `Content-Length` header whose value is the
byte length of the final (possibly compressed) body actually placed in the Response,
never the pre-compression length. -/
theorem build_body_and_content_length (gz : List Char → List Char)
    (b : ResponseBuilder) (body : List Char) (hb : b.body = some body) :
    (b.build gz).body =
        some (if ("Content-Encoding", "gzip") ∈ b.headersOrEmpty then gz body
          else body) ∧
      (b.set_content_length_header = true →
        (b.build gz).headers = b.headersOrEmpty ++
          [("Content-Length",
            toString (if ("Content-Encoding", "gzip") ∈ b.headersOrEmpty then gz body
              else body).length)]) ∧
      (b.set_content_length_header = false →
        (b.build gz).headers = b.headersOrEmpty) := by
  cases hf : b.set_content_length_header <;>
    by_cases hce : ("Content-Encoding", "gzip") ∈ b.headersOrEmpty <;>
      simp only [ResponseBuilder.build, ResponseBuilder.headersOrEmpty, hb, hf,
        find_content_encoding_gzip, ResponseBuilder.headersOrEmpty] at * <;>
        simp [hce]

/-- C1 (witness): the build theorem applied at a concrete builder holding a
`Content-Encoding: gzip` header and body `hi`, with a concrete encoder. -/
theorem build_body_and_content_length_witness :
    (ResponseBuilder.build (fun l => 'g' :: l)
        ⟨.Ok, some [("Content-Encoding", "gzip")], some "hi".toList, true⟩).body =
        some "ghi".toList ∧
      (ResponseBuilder.build (fun l => 'g' :: l)
        ⟨.Ok, some [("Content-Encoding", "gzip")], some "hi".toList, true⟩).headers =
        [("Content-Encoding", "gzip"), ("Content-Length", "3")] := by
  have h := build_body_and_content_length (fun l => 'g' :: l)
    ⟨.Ok, some [("Content-Encoding", "gzip")], some "hi".toList, true⟩ "hi".toList rfl
  refine ⟨?_, ?_⟩
  · rw [h.1]
    decide
  · rw [h.2.1 rfl]
    decide

/-- C4: for every sequence of builder calls starting from a fresh builder, the builder
itself accumulates no `Content-Length` header (caller-supplied ones are silently
dropped, in both the single-header and the list form), and the finalized Response holds
at most one `Content-Length` header — inserted only by the finalization step. -/
theorem content_length_at_most_one (gz : List Char → List Char) (sc : StatusCode)
    (ops : List BuildOp) :
    countCL (applyOps (ResponseBuilder.mkNew sc) ops).headersOrEmpty = 0 ∧
    countCL ((applyOps (ResponseBuilder.mkNew sc) ops).build gz).headers ≤ 1 := by
  refine ⟨countCL_headersOrEmpty_applyOps sc ops, ?_⟩
  rw [countCL_build, countCL_headersOrEmpty_applyOps]
  split <;> simp

/-- C9: from every reachable builder state, any number of `header "Content-Length" v`
calls followed by `without_content_length_header` and `build` yields a Response with
zero `Content-Length` headers. -/
theorem without_content_length_builds_no_length_header (gz : List Char → List Char)
    (sc : StatusCode) (ops : List BuildOp) (vs : List String) :
    countCL (ResponseBuilder.build gz
      (ResponseBuilder.without_content_length_header
        ((applyOps (ResponseBuilder.mkNew sc) ops).setCLs vs))).headers = 0 := by
  rw [setCLs_id, countCL_build]
  have h1 : (applyOps (ResponseBuilder.mkNew sc)
      ops).without_content_length_header.headersOrEmpty =
      (applyOps (ResponseBuilder.mkNew sc) ops).headersOrEmpty := rfl
  rw [h1, countCL_headersOrEmpty_applyOps]
  simp [ResponseBuilder.without_content_length_header]

/-- C8 (counterexample): there are no two builder states identical except for body
`none` versus body `some []` whose built Responses differ in the presence of a
`Content-Length` header — presence depends only on the suppression flag, so the claimed
pair of states does not exist. -/
theorem no_presence_difference_none_vs_some_empty :
    ¬ ∃ (gz : List Char → List Char) (sc : StatusCode)
        (hs : Option (List (String × String))) (f : Bool),
      hasCL (ResponseBuilder.build gz ⟨sc, hs, none, f⟩).headers ≠
        hasCL (ResponseBuilder.build gz ⟨sc, hs, some [], f⟩).headers := by
  rintro ⟨gz, sc, hs, f, h⟩
  apply h
  cases f <;> simp [ResponseBuilder.build, hasCL]

/-- C8 (amended): the Response body does distinguish `none` from `some` of the empty
byte sequence — the built Responses differ in their body field — but the presence of a
`Content-Length` header does not depend on it: the two builds always agree on presence,
which equals the suppression flag (or a `Content-Length` already among the headers). -/
theorem body_none_vs_some_empty (gz : List Char → List Char) (sc : StatusCode)
    (hs : Option (List (String × String))) (f : Bool) :
    (ResponseBuilder.build gz ⟨sc, hs, none, f⟩).body = none ∧
    (ResponseBuilder.build gz ⟨sc, hs, some [], f⟩).body ≠ none ∧
    hasCL (ResponseBuilder.build gz ⟨sc, hs, none, f⟩).headers =
      hasCL (ResponseBuilder.build gz ⟨sc, hs, some [], f⟩).headers ∧
    hasCL (ResponseBuilder.build gz ⟨sc, hs, none, f⟩).headers =
      (hasCL (hs.getD []) || f) := by
  refine ⟨?_, ?_, ?_, ?_⟩
  · simp [ResponseBuilder.build]
  · cases hfa : (hs.getD []).find? fun kv =>
        kv.1 == "Content-Encoding" && kv.2 == "gzip" <;>
      simp [ResponseBuilder.build, hfa]
  · cases f <;> simp [ResponseBuilder.build, hasCL]
  · cases f <;> simp [ResponseBuilder.build, hasCL]

/-! ## The status-code claim -/

/-- C5: evaluation of the status-code enum as written in `src/http/status_code.rs`.
The enum provides exactly four codes — 200 OK, 400 Bad Request, 404 Not Found,
500 Internal Server Error — each serializing as `HTTP/1.1 <code> <reason>\r\n`, and in
particular no variant carries 201: the `StatusCode::Created` used by
`post_file_response` in `src/handlers.rs` (and its tests) is not declared. -/
theorem src_status_code_enum_evaluation :
    (∀ s : SrcStatusCode, s.code ≠ 201) ∧
    ([SrcStatusCode.Ok, SrcStatusCode.BadRequest, SrcStatusCode.NotFound,
        SrcStatusCode.InternalServerError].map (fun s => (s.code, s.message)) =
      [(200, "OK"), (400, "Bad Request"), (404, "Not Found"),
        (500, "Internal Server Error")]) ∧
    (∀ s : SrcStatusCode,
      s.render = "HTTP/1.1 " ++ toString s.code ++ " " ++ s.message ++ "\r\n") ∧
    SrcStatusCode.Ok.render = "HTTP/1.1 200 OK\r\n" ∧
    SrcStatusCode.InternalServerError.render = "HTTP/1.1 500 Internal Server Error\r\n" := by
  refine ⟨fun s => by cases s <;> decide, by decide, fun s => rfl, by decide, by decide⟩

/-! ## The handler claims -/

/-- C6: the dispatch layer adds `Content-Encoding: gzip` to the handler's builder before
building exactly when the request carries an `Accept-Encoding` header whose value equals
or contains the token `gzip`; otherwise the builder is built unchanged. -/
theorem gzip_negotiation (gz : List Char → List Char) (req : Request)
    (rb : ResponseBuilder) :
    ((∃ kv ∈ req.headers, kv.1 = "Accept-Encoding".toList ∧
        (kv.2 = "gzip".toList ∨ "gzip".toList <:+: kv.2)) →
      finishResponse gz req rb = (rb.header "Content-Encoding" "gzip").build gz) ∧
    ((¬ ∃ kv ∈ req.headers, kv.1 = "Accept-Encoding".toList ∧
        (kv.2 = "gzip".toList ∨ "gzip".toList <:+: kv.2)) →
      finishResponse gz req rb = rb.build gz) := by
  have hiff : (findAcceptGzip req.headers).isSome ↔
      ∃ kv ∈ req.headers, kv.1 = "Accept-Encoding".toList ∧
        (kv.2 = "gzip".toList ∨ "gzip".toList <:+: kv.2) := by
    rw [findAcceptGzip, List.find?_isSome]
    constructor
    · rintro ⟨kv, hkv, hp⟩
      rw [Bool.and_eq_true, Bool.or_eq_true, beq_iff_eq, beq_iff_eq,
        decide_eq_true_iff] at hp
      exact ⟨kv, hkv, hp.1, hp.2⟩
    · rintro ⟨kv, hkv, h1, h2⟩
      refine ⟨kv, hkv, ?_⟩
      rw [Bool.and_eq_true, Bool.or_eq_true, beq_iff_eq, beq_iff_eq,
        decide_eq_true_iff]
      exact ⟨h1, h2⟩
  constructor
  · intro hex
    have hsome : (findAcceptGzip req.headers).isSome := hiff.mpr hex
    unfold finishResponse
    cases hfa : findAcceptGzip req.headers with
    | none => rw [hfa] at hsome; cases hsome
    | some kv => rfl
  · intro hnex
    have hnone : findAcceptGzip req.headers = none := by
      cases hfa : findAcceptGzip req.headers with
      | none => rfl
      | some kv =>
        exact absurd (hiff.mp (by rw [hfa]; rfl)) hnex
    unfold finishResponse
    rw [hnone]

/-- C6 (witness): the negotiation theorem applied at a request that accepts gzip (value
`gzip, br` contains the token) and at a request with no `Accept-Encoding` header. -/
theorem gzip_negotiation_witness :
    finishResponse (fun l => l)
        ⟨.Get, "/".toList, [("Accept-Encoding".toList, "gzip, br".toList)], []⟩
        (ResponseBuilder.mkNew .Ok) =
      ((ResponseBuilder.mkNew .Ok).header "Content-Encoding" "gzip").build
        (fun l => l) ∧
    finishResponse (fun l => l) ⟨.Get, "/".toList, [], []⟩ (ResponseBuilder.mkNew .Ok) =
      (ResponseBuilder.mkNew .Ok).build (fun l => l) :=
  ⟨(gzip_negotiation (fun l => l)
        ⟨.Get, "/".toList, [("Accept-Encoding".toList, "gzip, br".toList)], []⟩
        (ResponseBuilder.mkNew .Ok)).1
      ⟨("Accept-Encoding".toList, "gzip, br".toList), by simp, rfl, .inr (by decide)⟩,
    (gzip_negotiation (fun l => l) ⟨.Get, "/".toList, [], []⟩
        (ResponseBuilder.mkNew .Ok)).2
      (by rintro ⟨kv, hkv, -⟩; cases hkv)⟩

/-- C7: evaluation of the file-write handler `post_file_response`.  An open failure
returns 500 Internal Server Error with length suppression; a write failure after a
successful open returns 400 Bad Request; a successful open and write return 201 Created
with length suppression and no body.  But the success branch accepts any reported write
count: when the single `write` call reports 5 of the 11 bytes of body `Hello World`
written — a short write its contract permits — the handler still returns 201 while the
file `/tmp/test.txt` holds only `Hello`, not the full request body. -/
theorem post_file_response_short_write :
    (post_file_response ⟨.Post, "/files/test.txt".toList, [], "Hello World".toList⟩
        "/tmp".toList [] .err .err).1 =
      (ResponseBuilder.mkNew .InternalServerError).without_content_length_header ∧
    (post_file_response ⟨.Post, "/files/test.txt".toList, [], "Hello World".toList⟩
        "/tmp".toList [] .ok .err).1 = ResponseBuilder.mkNew .BadRequest ∧
    (post_file_response ⟨.Post, "/files/test.txt".toList, [], "Hello World".toList⟩
        "/tmp".toList [] .ok (.ok 5)).1 =
      (ResponseBuilder.mkNew .Created).without_content_length_header ∧
    ((post_file_response ⟨.Post, "/files/test.txt".toList, [], "Hello World".toList⟩
        "/tmp".toList [] .ok (.ok 5)).1).body = none ∧
    getFile (post_file_response
        ⟨.Post, "/files/test.txt".toList, [], "Hello World".toList⟩
        "/tmp".toList [] .ok (.ok 5)).2 "/tmp/test.txt".toList =
      some "Hello".toList ∧
    "Hello".toList ≠ "Hello World".toList ∧
    getFile (post_file_response
        ⟨.Post, "/files/test.txt".toList, [], "Hello World".toList⟩
        "/tmp".toList [] .ok (.ok 11)).2 "/tmp/test.txt".toList =
      some "Hello World".toList := by
  decide

end HttpServer
